import Mathlib

/-!
Shallow embedding of `sat_pred/ssim.py`: the 1D/2D Gaussian kernel builders
and the `SSIM3D` module (constructor and `forward`), over real numbers.

Tensors are modelled as a 5-tuple of axis sizes `[batch, channel, time,
height, width]` together with a total data function on natural indices;
entries outside the shape are irrelevant to the claims (which quantify over
in-range indices only).  Elementwise torch operations are modelled with
torch broadcasting semantics, `torch.cat` with its non-batch shape check,
`F.conv3d` (grouped, zero-padded) with its size checks, and slicing with
clamping, so that the error behaviour of `forward` is faithful to the code.
-/

namespace SatPred

/-- A 5-axis tensor `[batch, channel, time, height, width]`; `data` is a
total function on indices, with entries outside the shape irrelevant. -/
structure STensor where
  B : ℕ
  C : ℕ
  T : ℕ
  H : ℕ
  W : ℕ
  data : ℕ → ℕ → ℕ → ℕ → ℕ → ℝ

/-- The shape of a tensor as a 5-tuple. -/
def STensor.shape (x : STensor) : ℕ × ℕ × ℕ × ℕ × ℕ := (x.B, x.C, x.T, x.H, x.W)

/-- Two axis sizes are broadcast-compatible (torch rule): equal or one is 1. -/
def bcompat (a b : ℕ) : Bool := a == b || a == 1 || b == 1

/-- Size of the axis resulting from broadcasting sizes `a` and `b`. -/
def bdim (a b : ℕ) : ℕ := if a = 1 then b else a

/-- Reading index for an operand axis of size `d` under broadcasting. -/
def bidx (d i : ℕ) : ℕ := if d = 1 then 0 else i

/-- Elementwise binary torch operation with broadcasting; fails when some
axis pair is not broadcast-compatible. -/
def broadcastOp (f : ℝ → ℝ → ℝ) (x y : STensor) : Except String STensor :=
  if bcompat x.B y.B && bcompat x.C y.C && bcompat x.T y.T &&
      bcompat x.H y.H && bcompat x.W y.W then
    .ok ⟨bdim x.B y.B, bdim x.C y.C, bdim x.T y.T, bdim x.H y.H, bdim x.W y.W,
      fun b c t h w =>
        f (x.data (bidx x.B b) (bidx x.C c) (bidx x.T t) (bidx x.H h) (bidx x.W w))
          (y.data (bidx y.B b) (bidx y.C c) (bidx y.T t) (bidx y.H h) (bidx y.W w))⟩
  else .error "broadcast shape mismatch"

/-- Elementwise product `x * y` (torch `*`). -/
def tmul : STensor → STensor → Except String STensor :=
  broadcastOp (fun a b => a * b)

/-- Elementwise difference `x - y` (torch `-`). -/
def tsub : STensor → STensor → Except String STensor :=
  broadcastOp (fun a b => a - b)

/-- Elementwise sum `x + y` (torch `+`). -/
def tadd : STensor → STensor → Except String STensor :=
  broadcastOp (fun a b => a + b)

/-- Elementwise quotient `x / y` (torch `/`). -/
noncomputable def tdiv : STensor → STensor → Except String STensor :=
  broadcastOp (fun a b => a / b)

/-- Elementwise unary map (scalar ops never fail and keep the shape). -/
def tmap (f : ℝ → ℝ) (x : STensor) : STensor :=
  ⟨x.B, x.C, x.T, x.H, x.W, fun b c t h w => f (x.data b c t h w)⟩

/-- Torch `x ** 2`, elementwise square. -/
def tpow2 (x : STensor) : STensor := tmap (fun v => v ^ 2) x

/-- Torch `r * x`, scalar times tensor. -/
def tsmul (r : ℝ) (x : STensor) : STensor := tmap (fun v => r * v) x

/-- Torch `x + r`, tensor plus scalar. -/
def tsadd (r : ℝ) (x : STensor) : STensor := tmap (fun v => v + r) x

/-- Torch `cat` check: the tensors agree on every non-batch axis. -/
def sameNonBatch (x y : STensor) : Bool :=
  x.C == y.C && x.T == y.T && x.H == y.H && x.W == y.W

/-- Data function of the batch-axis concatenation of a list of tensors. -/
def catData (ts : List STensor) (b c t h w : ℕ) : ℝ :=
  match ts with
  | [] => 0
  | x :: rest => if b < x.B then x.data b c t h w else catData rest (b - x.B) c t h w

/-- Torch `cat` along the batch axis: fails on an empty list or when some
tensor disagrees with the first on a non-batch axis. -/
def catBatch (ts : List STensor) : Except String STensor :=
  match ts with
  | [] => .error "cat of empty tensor list"
  | x :: rest =>
    if rest.all (sameNonBatch x) then
      .ok ⟨(ts.map STensor.B).sum, x.C, x.T, x.H, x.W, catData ts⟩
    else .error "cat shape mismatch"

/-- Entry `(i, j)` of a 2D kernel stored as a list of rows (0 off-range). -/
def kfun (K : List (List ℝ)) (i j : ℕ) : ℝ := (K.getD i []).getD j 0

/-- Torch slice `x[lo:hi]` along the batch axis, with torch index clamping. -/
def tslice (x : STensor) (lo hi : ℕ) : STensor :=
  ⟨min hi x.B - min lo x.B, x.C, x.T, x.H, x.W,
    fun b c t h w => x.data (b + min lo x.B) c t h w⟩

/-- Model of `F.conv3d(inp, weight, padding=pad, groups)` where the weight is
the 2D kernel `K` expanded to shape `(groups, 1, 1, kh, kw)` — every channel
convolves with the same spatial kernel, time kernel extent 1.  `pad` is the
per-axis `(time, height, width)` zero padding.  Fails (as torch does) when
`groups` is not positive, when the channel count disagrees with the grouped
weight, or when a padded extent is smaller than the kernel extent. -/
def conv3d (inp : STensor) (K : List (List ℝ)) (pad : List ℕ) (groups : ℕ) :
    Except String STensor :=
  let kh := K.length
  let kw := (K.getD 0 []).length
  let pt := pad.getD 0 0
  let ph := pad.getD 1 0
  let pw := pad.getD 2 0
  if groups = 0 then .error "non-positive groups is not supported"
  else if inp.C ≠ groups then .error "channel count incompatible with groups"
  else if inp.T + 2 * pt < 1 ∨ inp.H + 2 * ph < kh ∨ inp.W + 2 * pw < kw then
    .error "kernel size larger than padded input"
  else
    .ok ⟨inp.B, inp.C, inp.T + 2 * pt - 1 + 1, inp.H + 2 * ph - kh + 1,
      inp.W + 2 * pw - kw + 1,
      fun b c t i j =>
        ∑ di ∈ Finset.range kh, ∑ dj ∈ Finset.range kw,
          kfun K di dj *
            (if pt ≤ t ∧ t < inp.T + pt ∧ ph ≤ i + di ∧ i + di < inp.H + ph ∧
                pw ≤ j + dj ∧ j + dj < inp.W + pw
             then inp.data b c (t - pt) (i + di - ph) (j + dj - pw) else 0)⟩

/-! ### Kernel builder (`create_1d_gaussian_kernel`, `create_2d_gaussian_kernel`) -/

/-- Sample point `i` of `torch.linspace a b steps`. -/
noncomputable def linspacePt (a b : ℝ) (steps i : ℕ) : ℝ :=
  a + i * ((b - a) / ((steps : ℝ) - 1))

/-- Model of `torch.linspace a b steps`: `steps` evenly spaced points from
`a` to `b` inclusive (for `steps = 1` the single point is `a`, matching
torch; division by zero in ℝ makes the same formula cover that case). -/
noncomputable def linspace (a b : ℝ) (steps : ℕ) : List ℝ :=
  (List.range steps).map (linspacePt a b steps)

/-- Model of `create_1d_gaussian_kernel` from the source: sample
`kernel_size` points over `[-(kernel_size-1)*0.5, (kernel_size-1)*0.5]`,
apply the unnormalized Gaussian, and divide by the sum. -/
noncomputable def create_1d_gaussian_kernel (kernel_size : ℕ) (sigma : ℝ) :
    List ℝ :=
  let ksize_half : ℝ := ((kernel_size : ℝ) - 1) * 0.5
  let kernel := linspace (-ksize_half) ksize_half kernel_size
  let gauss := kernel.map (fun t => Real.exp (-0.5 * (t / sigma) ^ 2))
  gauss.map (fun g => g / gauss.sum)

/-- Scalar-or-pair resolution for `kernel_size` (`int | list[int]`). -/
def resolveKS : ℕ ⊕ ℕ × ℕ → ℕ × ℕ
  | .inl v => (v, v)
  | .inr p => p

/-- Scalar-or-pair resolution for `sigma` (`float | list[float]`). -/
def resolveSig : ℝ ⊕ ℝ × ℝ → ℝ × ℝ
  | .inl v => (v, v)
  | .inr p => p

/-- Torch `unsqueeze(dim=1)` on a 1D tensor: a column matrix. -/
def unsqueeze1 (v : List ℝ) : List (List ℝ) := v.map (fun a => [a])

/-- Torch `unsqueeze(dim=0)` on a 1D tensor: a row matrix. -/
def unsqueeze0 (v : List ℝ) : List (List ℝ) := [v]

/-- Model of `torch.matmul` on matrices stored as lists of rows. -/
def matmul (A Bm : List (List ℝ)) : List (List ℝ) :=
  A.map (fun row =>
    (List.range (Bm.headD []).length).map
      (fun j => (List.zipWith (fun a brow => a * brow.getD j 0) row Bm).sum))

/-- Model of `create_2d_gaussian_kernel` from the source: resolve scalars to
pairs, build the two 1D kernels, and multiply column by row. -/
noncomputable def create_2d_gaussian_kernel (kernel_size : ℕ ⊕ ℕ × ℕ)
    (sigma : ℝ ⊕ ℝ × ℝ) : List (List ℝ) :=
  let ks := resolveKS kernel_size
  let sg := resolveSig sigma
  let kernel_x := unsqueeze1 (create_1d_gaussian_kernel ks.1 sg.1)
  let kernel_y := unsqueeze0 (create_1d_gaussian_kernel ks.2 sg.2)
  matmul kernel_x kernel_y

/-! ### The SSIM3D module -/

/-- The state of a constructed `SSIM3D` module: the stability constants, the
fixed 2D kernel, and the per-axis conv padding `[0, pH, pW]`. -/
structure SSIM3D where
  c1 : ℝ
  c2 : ℝ
  kernel : List (List ℝ)
  pad : List ℕ

/-- Model of `SSIM3D.__init__`: validate `data_range > 0`, `k1 > 0`,
`k2 > 0` (in that order, as the source asserts), then build the 2D Gaussian
kernel and store `c1`, `c2` and the padding `[0] ++ [(k-1)//2 for k]`. -/
noncomputable def SSIM3D.init (kernel_size : ℕ ⊕ ℕ × ℕ) (sigma : ℝ ⊕ ℝ × ℝ)
    (k1 k2 data_range : ℝ) : Except String SSIM3D :=
  if 0 < data_range then
    if 0 < k1 then
      if 0 < k2 then
        let ks := resolveKS kernel_size
        .ok { c1 := (k1 * data_range) ^ 2
              c2 := (k2 * data_range) ^ 2
              kernel := create_2d_gaussian_kernel kernel_size sigma
              pad := [0, (ks.1 - 1) / 2, (ks.2 - 1) / 2] }
      else .error "InvalidConfiguration"
    else .error "InvalidConfiguration"
  else .error "InvalidConfiguration"

/-- The default-configured module (`kernel_size=11, sigma=1.5, k1=0.01,
k2=0.03, data_range=1`), written out as `__init__` computes it. -/
noncomputable def defaultSSIM : SSIM3D :=
  { c1 := (0.01 * 1) ^ 2
    c2 := (0.03 * 1) ^ 2
    kernel := create_2d_gaussian_kernel (.inl 11) (.inl 1.5)
    pad := [0, (11 - 1) / 2, (11 - 1) / 2] }

/-- Model of `SSIM3D.forward`: form the five derived volumes, concatenate
along the batch axis, convolve once with the grouped kernel, split back, and
assemble the SSIM ratio — in the evaluation order of the source. -/
noncomputable def SSIM3D.forward (m : SSIM3D) (x y : STensor) :
    Except String STensor := do
  let batch_size := x.B
  let num_channels := x.C
  let xy ← tmul x y
  let kernal_inputs ← catBatch [x, y, tpow2 x, tpow2 y, xy]
  let kernel_outputs ← conv3d kernal_inputs m.kernel m.pad num_channels
  let ux := tslice kernel_outputs 0 batch_size
  let uy := tslice kernel_outputs batch_size (2 * batch_size)
  let uxx := tslice kernel_outputs (2 * batch_size) (3 * batch_size)
  let uyy := tslice kernel_outputs (3 * batch_size) (4 * batch_size)
  let uxy := tslice kernel_outputs (4 * batch_size) (5 * batch_size)
  let uxux ← tmul ux ux
  let vx ← tsub uxx uxux
  let uyuy ← tmul uy uy
  let vy ← tsub uyy uyuy
  let uxuy ← tmul ux uy
  let vxy ← tsub uxy uxuy
  let a1p ← tmul (tsmul 2 ux) uy
  let a1 := tsadd m.c1 a1p
  let a2 := tsadd m.c2 (tsmul 2 vxy)
  let b1p ← tadd (tpow2 ux) (tpow2 uy)
  let b1 := tsadd m.c1 b1p
  let b2p ← tadd vx vy
  let b2 := tsadd m.c2 b2p
  let num ← tmul a1 a2
  let den ← tmul b1 b2
  tdiv num den

/-- A concrete constant-zero tensor of the given shape, for witnesses. -/
def tZero (Bn Cn Tn Hn Wn : ℕ) : STensor :=
  ⟨Bn, Cn, Tn, Hn, Wn, fun _ _ _ _ _ => 0⟩

/-! ### Specification-side definitions

These follow the wording of the specification (for the refinement claims)
rather than the source, and are compared with the source-side definitions
above. -/

/-- Modelled from the spec: the 2D kernel as the outer product of the two
1D kernels (column vector times row vector). -/
def outerProduct (u v : List ℝ) : List (List ℝ) :=
  u.map (fun a => v.map (fun b => a * b))

/-- Modelled from the spec (`build1D`): `half = (kernel_size - 1) / 2`;
`kernel_size` evenly spaced sample points over `[-half, +half]` inclusive;
`exp (-0.5 * (t / sigma) ^ 2)` at each sample; normalize by the sum. -/
noncomputable def gaussian1d_spec (kernel_size : ℕ) (sigma : ℝ) : List ℝ :=
  let half : ℝ := ((kernel_size : ℝ) - 1) / 2
  let pts := linspace (-half) half kernel_size
  let g := pts.map (fun t => Real.exp (-(0.5) * (t / sigma) ^ 2))
  g.map (fun v => v / g.sum)

/-- The local windowed statistic of one volume: the zero-padded spatial
convolution of `d` with the 2D kernel `K`, at index `(b, c, t, i, j)`. -/
noncomputable def convAt (K : List (List ℝ)) (ph pw Hd Wd : ℕ)
    (d : ℕ → ℕ → ℕ → ℕ → ℕ → ℝ) (b c t i j : ℕ) : ℝ :=
  ∑ di ∈ Finset.range K.length, ∑ dj ∈ Finset.range (K.getD 0 []).length,
    kfun K di dj *
      (if ph ≤ i + di ∧ i + di < Hd + ph ∧ pw ≤ j + dj ∧ j + dj < Wd + pw
       then d b c t (i + di - ph) (j + dj - pw) else 0)

/-- The pointwise SSIM ratio, as assembled by `forward` from the five local
means. -/
noncomputable def ssim_formula (c1 c2 ux uy uxx uyy uxy : ℝ) : ℝ :=
  ((2 * ux * uy + c1) * (2 * (uxy - ux * uy) + c2)) /
    ((ux ^ 2 + uy ^ 2 + c1) * ((uxx - ux ^ 2) + (uyy - uy ^ 2) + c2))

/-! ### Basic facts about the kernel builder -/

/-- Sample point `i` of the grid used by `create_1d_gaussian_kernel n`. -/
noncomputable def gpt (n i : ℕ) : ℝ :=
  linspacePt (-(((n : ℝ) - 1) * 0.5)) (((n : ℝ) - 1) * 0.5) n i

/-- Unnormalized Gaussian value at sample `i`. -/
noncomputable def gval (n : ℕ) (sigma : ℝ) (i : ℕ) : ℝ :=
  Real.exp (-0.5 * (gpt n i / sigma) ^ 2)

/-- Normalization constant of the 1D kernel. -/
noncomputable def gsum (n : ℕ) (sigma : ℝ) : ℝ :=
  ∑ i ∈ Finset.range n, gval n sigma i

lemma linspace_length (a b : ℝ) (n : ℕ) : (linspace a b n).length = n := by
  simp [linspace]

lemma create1d_length (n : ℕ) (sigma : ℝ) :
    (create_1d_gaussian_kernel n sigma).length = n := by
  simp [create_1d_gaussian_kernel, linspace]

lemma list_sum_map_range (f : ℕ → ℝ) (n : ℕ) :
    ((List.range n).map f).sum = ∑ i ∈ Finset.range n, f i := by
  induction n with
  | zero => simp
  | succ k ih => rw [List.range_succ, Finset.sum_range_succ, List.map_append,
      List.sum_append, ih]; simp

lemma getD_map_lt (f : ℝ → ℝ) (l : List ℝ) (i : ℕ) (h : i < l.length) :
    (l.map f).getD i 0 = f (l.getD i 0) := by
  rw [List.getD_eq_getElem _ _ (by simpa using h), List.getD_eq_getElem _ _ h]
  simp

lemma linspace_getD (a b : ℝ) (n i : ℕ) (h : i < n) :
    (linspace a b n).getD i 0 = linspacePt a b n i := by
  rw [linspace, List.getD_eq_getElem _ _ (by simpa using h)]
  simp

lemma create1d_gauss_sum (n : ℕ) (sigma : ℝ) :
    ((linspace (-(((n : ℝ) - 1) * 0.5)) (((n : ℝ) - 1) * 0.5) n).map
      (fun t => Real.exp (-0.5 * (t / sigma) ^ 2))).sum = gsum n sigma := by
  rw [linspace, List.map_map, list_sum_map_range]
  rfl

lemma create1d_getD (n : ℕ) (sigma : ℝ) (i : ℕ) (h : i < n) :
    (create_1d_gaussian_kernel n sigma).getD i 0 =
      gval n sigma i / gsum n sigma := by
  simp only [create_1d_gaussian_kernel]
  rw [create1d_gauss_sum, getD_map_lt _ _ _ (by simp [linspace, h]),
    getD_map_lt _ _ _ (by simp [linspace, h]), linspace_getD _ _ _ _ h]
  rfl

lemma gsum_pos (n : ℕ) (sigma : ℝ) (hn : 1 ≤ n) : 0 < gsum n sigma :=
  Finset.sum_pos (fun i _ => Real.exp_pos _) (Finset.nonempty_range_iff.mpr (by omega))

lemma create1d_getD_pos (n : ℕ) (sigma : ℝ) (i : ℕ) (h : i < n) :
    0 < (create_1d_gaussian_kernel n sigma).getD i 0 := by
  rw [create1d_getD n sigma i h]
  exact div_pos (Real.exp_pos _) (gsum_pos n sigma (by omega))

lemma list_sum_map_div (l : List ℝ) (s : ℝ) :
    (l.map (fun g => g / s)).sum = l.sum / s := by
  induction l with
  | nil => simp
  | cons a tl ih => simp [ih, add_div]

lemma create1d_sum (n : ℕ) (sigma : ℝ) (hn : 1 ≤ n) :
    (create_1d_gaussian_kernel n sigma).sum = 1 := by
  simp only [create_1d_gaussian_kernel]
  rw [list_sum_map_div, create1d_gauss_sum,
    div_self (ne_of_gt (gsum_pos n sigma hn))]

lemma gpt_eq_of_two_le (n i : ℕ) (h2 : 2 ≤ n) :
    gpt n i = (i : ℝ) - ((n : ℝ) - 1) * 0.5 := by
  have hn : ((n : ℝ) - 1) ≠ 0 := by
    have : (2 : ℝ) ≤ (n : ℝ) := by exact_mod_cast h2
    intro h; nlinarith
  field_simp [gpt, linspacePt]
  ring

lemma gpt_symm (n i : ℕ) (h : i < n) : gpt n (n - 1 - i) = -gpt n i := by
  rcases Nat.lt_or_ge n 2 with h1 | h2
  · have hn1 : n = 1 := by omega
    have hi : i = 0 := by omega
    subst hn1; subst hi
    simp [gpt, linspacePt]
  · rw [gpt_eq_of_two_le n i h2, gpt_eq_of_two_le n (n - 1 - i) h2]
    have hc : ((n - 1 - i : ℕ) : ℝ) = (n : ℝ) - 1 - (i : ℝ) := by
      push_cast [Nat.cast_sub (by omega : i ≤ n - 1), Nat.cast_sub (by omega : 1 ≤ n)]
      ring
    rw [hc]; ring

lemma gval_symm (n : ℕ) (sigma : ℝ) (i : ℕ) (h : i < n) :
    gval n sigma (n - 1 - i) = gval n sigma i := by
  rw [gval, gval, gpt_symm n i h, neg_div, neg_sq]

lemma create1d_symm (n : ℕ) (sigma : ℝ) (i : ℕ) (h : i < n) :
    (create_1d_gaussian_kernel n sigma).getD i 0 =
      (create_1d_gaussian_kernel n sigma).getD (n - 1 - i) 0 := by
  rw [create1d_getD n sigma i h, create1d_getD n sigma (n - 1 - i) (by omega),
    gval_symm n sigma i h]

/-! ### Facts about the 2D kernel -/

lemma range_map_getD (a : ℝ) (v : List ℝ) :
    (List.range v.length).map (fun j => a * v.getD j 0) = v.map (fun b => a * b) := by
  apply List.ext_getElem (by simp)
  intro i h1 h2
  simp only [List.getElem_map, List.getElem_range]
  rw [List.getD_eq_getElem v 0 (by simpa using h2)]

lemma matmul_col_row (u v : List ℝ) :
    matmul (unsqueeze1 u) (unsqueeze0 v) = outerProduct u v := by
  simp only [matmul, unsqueeze1, unsqueeze0, outerProduct, List.map_map, List.headD]
  apply List.map_congr_left
  intro a _
  simp only [Function.comp_apply, List.zipWith, List.sum_cons, List.sum_nil, add_zero]
  exact range_map_getD a v

lemma create2d_eq_outer (ks : ℕ ⊕ ℕ × ℕ) (sg : ℝ ⊕ ℝ × ℝ) :
    create_2d_gaussian_kernel ks sg =
      outerProduct (create_1d_gaussian_kernel (resolveKS ks).1 (resolveSig sg).1)
        (create_1d_gaussian_kernel (resolveKS ks).2 (resolveSig sg).2) := by
  simp only [create_2d_gaussian_kernel]
  exact matmul_col_row _ _

lemma outer_length (u v : List ℝ) : (outerProduct u v).length = u.length := by
  simp [outerProduct]

lemma outer_row (u v : List ℝ) (i : ℕ) (h : i < u.length) :
    (outerProduct u v).getD i [] = v.map (fun b => u.getD i 0 * b) := by
  rw [outerProduct, List.getD_eq_getElem _ _ (by simpa using h),
    List.getD_eq_getElem _ _ h]
  simp

lemma kfun_outer (u v : List ℝ) (i j : ℕ) (hi : i < u.length) (hj : j < v.length) :
    kfun (outerProduct u v) i j = u.getD i 0 * v.getD j 0 := by
  rw [kfun, outer_row u v i hi, getD_map_lt _ _ _ hj]

lemma kfun_nonneg_of_entries (K : List (List ℝ))
    (h : ∀ i j, i < K.length → j < (K.getD i []).length → 0 ≤ kfun K i j)
    (i j : ℕ) : 0 ≤ kfun K i j := by
  rcases Nat.lt_or_ge i K.length with hi | hi
  · rcases Nat.lt_or_ge j ((K.getD i []).length) with hj | hj
    · exact h i j hi hj
    · rw [kfun, List.getD_eq_default _ _ hj]
  · rw [kfun, show K.getD i [] = [] from List.getD_eq_default _ _ hi]
    simp

lemma sum_range_getD (l : List ℝ) :
    ∑ i ∈ Finset.range l.length, l.getD i 0 = l.sum := by
  induction l with
  | nil => simp
  | cons a tl ih =>
    rw [List.length_cons, Finset.sum_range_succ']
    simp only [List.getD_cons_succ, List.getD_cons_zero, ih, List.sum_cons]
    ring

lemma sum_range_getD_of_length (l : List ℝ) (n : ℕ) (h : l.length = n) :
    ∑ i ∈ Finset.range n, l.getD i 0 = l.sum := by
  subst h; exact sum_range_getD l

lemma create2d_length (ks : ℕ ⊕ ℕ × ℕ) (sg : ℝ ⊕ ℝ × ℝ) :
    (create_2d_gaussian_kernel ks sg).length = (resolveKS ks).1 := by
  rw [create2d_eq_outer, outer_length, create1d_length]

lemma create2d_row0_length (ks : ℕ ⊕ ℕ × ℕ) (sg : ℝ ⊕ ℝ × ℝ)
    (h1 : 1 ≤ (resolveKS ks).1) :
    ((create_2d_gaussian_kernel ks sg).getD 0 []).length = (resolveKS ks).2 := by
  rw [create2d_eq_outer, outer_row _ _ 0 (by rw [create1d_length]; omega)]
  simp [create1d_length]

lemma kfun_create2d (ks : ℕ ⊕ ℕ × ℕ) (sg : ℝ ⊕ ℝ × ℝ) (i j : ℕ)
    (hi : i < (resolveKS ks).1) (hj : j < (resolveKS ks).2) :
    kfun (create_2d_gaussian_kernel ks sg) i j =
      (create_1d_gaussian_kernel (resolveKS ks).1 (resolveSig sg).1).getD i 0 *
        (create_1d_gaussian_kernel (resolveKS ks).2 (resolveSig sg).2).getD j 0 := by
  rw [create2d_eq_outer, kfun_outer _ _ _ _ (by rw [create1d_length]; omega)
    (by rw [create1d_length]; omega)]

lemma kfun_create2d_pos (ks : ℕ ⊕ ℕ × ℕ) (sg : ℝ ⊕ ℝ × ℝ) (i j : ℕ)
    (hi : i < (resolveKS ks).1) (hj : j < (resolveKS ks).2) :
    0 < kfun (create_2d_gaussian_kernel ks sg) i j := by
  rw [kfun_create2d ks sg i j hi hj]
  exact mul_pos (create1d_getD_pos _ _ _ hi) (create1d_getD_pos _ _ _ hj)

lemma kfun_create2d_nonneg (ks : ℕ ⊕ ℕ × ℕ) (sg : ℝ ⊕ ℝ × ℝ) (i j : ℕ) :
    0 ≤ kfun (create_2d_gaussian_kernel ks sg) i j := by
  apply kfun_nonneg_of_entries
  intro i j hi hj
  rw [create2d_length] at hi
  refine le_of_lt (kfun_create2d_pos ks sg i j hi ?_)
  rw [create2d_eq_outer, outer_row _ _ i (by rw [create1d_length]; omega)] at hj
  simpa [create1d_length] using hj

lemma create2d_sum (ks : ℕ ⊕ ℕ × ℕ) (sg : ℝ ⊕ ℝ × ℝ)
    (h1 : 1 ≤ (resolveKS ks).1) (h2 : 1 ≤ (resolveKS ks).2) :
    ∑ i ∈ Finset.range (resolveKS ks).1, ∑ j ∈ Finset.range (resolveKS ks).2,
      kfun (create_2d_gaussian_kernel ks sg) i j = 1 := by
  have : ∀ i ∈ Finset.range (resolveKS ks).1,
      ∑ j ∈ Finset.range (resolveKS ks).2, kfun (create_2d_gaussian_kernel ks sg) i j =
        (create_1d_gaussian_kernel (resolveKS ks).1 (resolveSig sg).1).getD i 0 *
          (create_1d_gaussian_kernel (resolveKS ks).2 (resolveSig sg).2).sum := by
    intro i hi
    rw [Finset.mem_range] at hi
    rw [← sum_range_getD_of_length
        (create_1d_gaussian_kernel (resolveKS ks).2 (resolveSig sg).2) _
        (create1d_length _ _), Finset.mul_sum]
    exact Finset.sum_congr rfl fun j hj =>
      kfun_create2d ks sg i j hi (by simpa using hj)
  rw [Finset.sum_congr rfl this, ← Finset.sum_mul,
    sum_range_getD_of_length _ _ (create1d_length _ _),
    create1d_sum _ _ h1, create1d_sum _ _ h2, one_mul]

/-- Weighted Cauchy-Schwarz: with nonnegative weights,
`(∑ w a)² ≤ (∑ w) (∑ w a²)`. -/
lemma sq_sum_le_sum_mul {ι : Type} (s : Finset ι) (w a : ι → ℝ)
    (hw : ∀ i ∈ s, 0 ≤ w i) :
    (∑ i ∈ s, w i * a i) ^ 2 ≤ (∑ i ∈ s, w i) * ∑ i ∈ s, w i * a i ^ 2 := by
  apply Finset.sum_sq_le_sum_mul_sum_of_sq_eq_mul s hw
    (fun i hi => mul_nonneg (hw i hi) (sq_nonneg _))
  intro i hi
  ring

/-! ### Claims about the kernel builder and the constructor -/

/-- C2: for every `kernel_size ≥ 1` and `sigma > 0`, `create_1d_gaussian_kernel`
returns exactly the sequence described by the spec (evenly spaced samples of
the unnormalized Gaussian over `[-(n-1)/2, (n-1)/2]`, divided by their sum),
and the result sums to 1. -/
theorem claim_C2_build1d (n : ℕ) (sigma : ℝ) (hn : 1 ≤ n) (hs : 0 < sigma) :
    create_1d_gaussian_kernel n sigma = gaussian1d_spec n sigma ∧
      (create_1d_gaussian_kernel n sigma).sum = 1 := by
  refine ⟨?_, create1d_sum n sigma hn⟩
  simp only [create_1d_gaussian_kernel, gaussian1d_spec]
  rw [show ((n : ℝ) - 1) * 0.5 = ((n : ℝ) - 1) / 2 from by ring]

/-- Witness for C2 at `kernel_size = 3`, `sigma = 1`. -/
theorem claim_C2_build1d_witness :
    (1 ≤ 3 ∧ (0 : ℝ) < 1) ∧
      (create_1d_gaussian_kernel 3 1 = gaussian1d_spec 3 1 ∧
        (create_1d_gaussian_kernel 3 1).sum = 1) :=
  ⟨⟨by norm_num, by norm_num⟩, claim_C2_build1d 3 1 (by norm_num) (by norm_num)⟩

/-- C9: for every valid `kernel_size`/`sigma`, the 1D kernel sums to 1 and is
symmetric about its center: `kernel[i] = kernel[n-1-i]` for every `i < n`. -/
theorem claim_C9_build1d_sum_symm (n : ℕ) (sigma : ℝ) (hn : 1 ≤ n)
    (hs : 0 < sigma) :
    (create_1d_gaussian_kernel n sigma).sum = 1 ∧
      ∀ i, i < n → (create_1d_gaussian_kernel n sigma).getD i 0 =
        (create_1d_gaussian_kernel n sigma).getD (n - 1 - i) 0 :=
  ⟨create1d_sum n sigma hn, fun i hi => create1d_symm n sigma i hi⟩

/-- Witness for C9 at `kernel_size = 4`, `sigma = 2`. -/
theorem claim_C9_build1d_sum_symm_witness :
    (1 ≤ 4 ∧ (0 : ℝ) < 2) ∧
      ((create_1d_gaussian_kernel 4 2).sum = 1 ∧
        ∀ i, i < 4 → (create_1d_gaussian_kernel 4 2).getD i 0 =
          (create_1d_gaussian_kernel 4 2).getD (4 - 1 - i) 0) :=
  ⟨⟨by norm_num, by norm_num⟩, claim_C9_build1d_sum_symm 4 2 (by norm_num) (by norm_num)⟩

/-- C10: for every `kernel_size ≥ 1` and `sigma > 0`, every element of the
1D kernel is strictly positive, and consequently every element of the 2D
outer-product kernel is strictly positive. -/
theorem claim_C10_kernel_positive :
    (∀ (n : ℕ) (sigma : ℝ), 1 ≤ n → 0 < sigma →
      ∀ i, i < n → 0 < (create_1d_gaussian_kernel n sigma).getD i 0) ∧
    (∀ (ks : ℕ ⊕ ℕ × ℕ) (sg : ℝ ⊕ ℝ × ℝ),
      1 ≤ (resolveKS ks).1 → 1 ≤ (resolveKS ks).2 →
      0 < (resolveSig sg).1 → 0 < (resolveSig sg).2 →
      ∀ i j, i < (resolveKS ks).1 → j < (resolveKS ks).2 →
        0 < kfun (create_2d_gaussian_kernel ks sg) i j) :=
  ⟨fun n sigma _ _ i hi => create1d_getD_pos n sigma i hi,
   fun ks sg _ _ _ _ i j hi hj => kfun_create2d_pos ks sg i j hi hj⟩

/-- Witness for C10 at `kernel_size = 3`, `sigma = 1` (1D) and at the 2D
kernel with scalar inputs `3` and `1`. -/
theorem claim_C10_kernel_positive_witness :
    0 < (create_1d_gaussian_kernel 3 1).getD 1 0 ∧
      0 < kfun (create_2d_gaussian_kernel (.inl 3) (.inl 1)) 2 2 :=
  ⟨claim_C10_kernel_positive.1 3 1 (by norm_num) (by norm_num) 1 (by norm_num),
   claim_C10_kernel_positive.2 (.inl 3) (.inl 1) (by norm_num [resolveKS])
     (by norm_num [resolveKS]) (by norm_num [resolveSig]) (by norm_num [resolveSig])
     2 2 (by norm_num [resolveKS]) (by norm_num [resolveKS])⟩

/-- C6: `create_2d_gaussian_kernel` resolves scalar inputs to symmetric
pairs, builds the 1D kernel independently per axis, and returns the outer
product of the two 1D kernels as a `[kernel_size_x, kernel_size_y]` matrix. -/
theorem claim_C6_build2d (ks : ℕ ⊕ ℕ × ℕ) (sg : ℝ ⊕ ℝ × ℝ) (v : ℕ) (s : ℝ) :
    create_2d_gaussian_kernel (.inl v) sg = create_2d_gaussian_kernel (.inr (v, v)) sg ∧
    create_2d_gaussian_kernel ks (.inl s) = create_2d_gaussian_kernel ks (.inr (s, s)) ∧
    create_2d_gaussian_kernel ks sg =
      outerProduct (create_1d_gaussian_kernel (resolveKS ks).1 (resolveSig sg).1)
        (create_1d_gaussian_kernel (resolveKS ks).2 (resolveSig sg).2) ∧
    (create_2d_gaussian_kernel ks sg).length = (resolveKS ks).1 ∧
    ∀ i, i < (resolveKS ks).1 →
      ((create_2d_gaussian_kernel ks sg).getD i []).length = (resolveKS ks).2 := by
  refine ⟨rfl, rfl, create2d_eq_outer ks sg, create2d_length ks sg, ?_⟩
  intro i hi
  rw [create2d_eq_outer, outer_row _ _ i (by rw [create1d_length]; omega)]
  simp [create1d_length]

/-- Witness for C6 at scalar inputs `3` and `1.5`. -/
theorem claim_C6_build2d_witness :
    create_2d_gaussian_kernel (.inl 3) (.inl (1.5 : ℝ)) =
      outerProduct (create_1d_gaussian_kernel 3 1.5) (create_1d_gaussian_kernel 3 1.5) ∧
    ((create_2d_gaussian_kernel (.inl 3) (.inl (1.5 : ℝ))).getD 2 []).length = 3 :=
  ⟨(claim_C6_build2d (.inl 3) (.inl (1.5 : ℝ)) 3 1.5).2.2.1,
   (claim_C6_build2d (.inl 3) (.inl (1.5 : ℝ)) 3 1.5).2.2.2.2 2 (by norm_num [resolveKS])⟩

/-- C5: `SSIM3D.init` fails with `InvalidConfiguration` if and only if at
least one of `data_range`, `k1`, `k2` is non-positive; when all three are
positive it succeeds. -/
theorem claim_C5_invalid_configuration (ks : ℕ ⊕ ℕ × ℕ) (sg : ℝ ⊕ ℝ × ℝ)
    (k1 k2 dr : ℝ) :
    ((∃ e, SSIM3D.init ks sg k1 k2 dr = .error e) ↔ (dr ≤ 0 ∨ k1 ≤ 0 ∨ k2 ≤ 0)) ∧
    ((∃ m, SSIM3D.init ks sg k1 k2 dr = .ok m) ↔ (0 < dr ∧ 0 < k1 ∧ 0 < k2)) := by
  unfold SSIM3D.init
  split_ifs with h1 h2 h3
  · refine ⟨⟨?_, ?_⟩, ⟨fun _ => ⟨h1, h2, h3⟩, fun _ => ⟨_, rfl⟩⟩⟩
    · rintro ⟨e, he⟩; cases he
    · intro h; exfalso; rcases h with h | h | h <;> linarith
  · refine ⟨⟨fun _ => ?_, fun _ => ⟨_, rfl⟩⟩, ⟨?_, ?_⟩⟩
    · exact Or.inr (Or.inr (not_lt.mp h3))
    · rintro ⟨m, hm⟩; cases hm
    · rintro ⟨_, _, hk⟩; exact absurd hk h3
  · refine ⟨⟨fun _ => ?_, fun _ => ⟨_, rfl⟩⟩, ⟨?_, ?_⟩⟩
    · exact Or.inr (Or.inl (not_lt.mp h2))
    · rintro ⟨m, hm⟩; cases hm
    · rintro ⟨_, hk, _⟩; exact absurd hk h2
  · refine ⟨⟨fun _ => ?_, fun _ => ⟨_, rfl⟩⟩, ⟨?_, ?_⟩⟩
    · exact Or.inl (not_lt.mp h1)
    · rintro ⟨m, hm⟩; cases hm
    · rintro ⟨hk, _, _⟩; exact absurd hk h1

/-! ### Stepping lemmas for `forward` -/

lemma except_bind_ok {α β : Type} (a : α) (k : α → Except String β) :
    ((Except.ok a : Except String α) >>= k) = k a := rfl

lemma bidx_lt (d i : ℕ) (h : i < d) : bidx d i = i := by
  unfold bidx
  split <;> omega

/-- A broadcast operation on literal tensors of identical shape. -/
lemma broadcastOp_lit (f : ℝ → ℝ → ℝ) (Bn Cn Tn Hn Wn : ℕ)
    (d e : ℕ → ℕ → ℕ → ℕ → ℕ → ℝ) :
    broadcastOp f ⟨Bn, Cn, Tn, Hn, Wn, d⟩ ⟨Bn, Cn, Tn, Hn, Wn, e⟩ =
      .ok ⟨Bn, Cn, Tn, Hn, Wn,
        fun b c t h w =>
          f (d (bidx Bn b) (bidx Cn c) (bidx Tn t) (bidx Hn h) (bidx Wn w))
            (e (bidx Bn b) (bidx Cn c) (bidx Tn t) (bidx Hn h) (bidx Wn w))⟩ := by
  rw [broadcastOp, if_pos] <;> simp [bcompat, bdim]

/-- A broadcast operation on two tensors of equal shape. -/
lemma broadcastOp_aligned (f : ℝ → ℝ → ℝ) (x y : STensor)
    (hB : y.B = x.B) (hC : y.C = x.C) (hT : y.T = x.T) (hH : y.H = x.H)
    (hW : y.W = x.W) :
    broadcastOp f x y =
      .ok ⟨x.B, x.C, x.T, x.H, x.W,
        fun b c t h w =>
          f (x.data (bidx x.B b) (bidx x.C c) (bidx x.T t) (bidx x.H h) (bidx x.W w))
            (y.data (bidx x.B b) (bidx x.C c) (bidx x.T t) (bidx x.H h) (bidx x.W w))⟩ := by
  rw [broadcastOp, if_pos] <;> rw [hB, hC, hT, hH, hW] <;> simp [bcompat, bdim]

lemma catBatch_cons_ok (x : STensor) (rest : List STensor)
    (h : rest.all (sameNonBatch x) = true) :
    catBatch (x :: rest) =
      .ok ⟨((x :: rest).map STensor.B).sum, x.C, x.T, x.H, x.W,
        catData (x :: rest)⟩ := by
  simp only [catBatch]
  rw [if_pos h]

/-- Evaluation of the concatenated data function inside each of the five
equally sized batch segments. -/
lemma catData_five (x1 x2 x3 x4 x5 : STensor) (Bn : ℕ)
    (e1 : x1.B = Bn) (e2 : x2.B = Bn) (e3 : x3.B = Bn) (e4 : x4.B = Bn)
    (e5 : x5.B = Bn) (b c t h w : ℕ) (hb : b < Bn) :
    catData [x1, x2, x3, x4, x5] b c t h w = x1.data b c t h w ∧
    catData [x1, x2, x3, x4, x5] (b + Bn) c t h w = x2.data b c t h w ∧
    catData [x1, x2, x3, x4, x5] (b + 2 * Bn) c t h w = x3.data b c t h w ∧
    catData [x1, x2, x3, x4, x5] (b + 3 * Bn) c t h w = x4.data b c t h w ∧
    catData [x1, x2, x3, x4, x5] (b + 4 * Bn) c t h w = x5.data b c t h w := by
  refine ⟨?_, ?_, ?_, ?_, ?_⟩
  · rw [catData, if_pos (by omega)]
  · rw [catData, if_neg (by omega), catData, if_pos (by omega),
      show b + Bn - x1.B = b from by omega]
  · rw [catData, if_neg (by omega), catData, if_neg (by omega), catData,
      if_pos (by omega), show b + 2 * Bn - x1.B - x2.B = b from by omega]
  · rw [catData, if_neg (by omega), catData, if_neg (by omega), catData,
      if_neg (by omega), catData, if_pos (by omega),
      show b + 3 * Bn - x1.B - x2.B - x3.B = b from by omega]
  · rw [catData, if_neg (by omega), catData, if_neg (by omega), catData,
      if_neg (by omega), catData, if_neg (by omega), catData,
      if_pos (by omega), show b + 4 * Bn - x1.B - x2.B - x3.B - x4.B = b from by omega]

/-- A grouped convolution with padding `[0, ph, pw]` that passes all the
torch checks. -/
lemma conv3d_ok (inp : STensor) (K : List (List ℝ)) (ph pw groups : ℕ)
    (hg : groups ≠ 0) (hc : inp.C = groups) (hT : 1 ≤ inp.T)
    (hH : K.length ≤ inp.H + 2 * ph)
    (hW : (K.getD 0 []).length ≤ inp.W + 2 * pw) :
    conv3d inp K [0, ph, pw] groups =
      .ok ⟨inp.B, inp.C, inp.T, inp.H + 2 * ph - K.length + 1,
        inp.W + 2 * pw - (K.getD 0 []).length + 1,
        fun b c t i j =>
          ∑ di ∈ Finset.range K.length, ∑ dj ∈ Finset.range (K.getD 0 []).length,
            kfun K di dj *
              (if t < inp.T ∧ ph ≤ i + di ∧ i + di < inp.H + ph ∧
                  pw ≤ j + dj ∧ j + dj < inp.W + pw
               then inp.data b c t (i + di - ph) (j + dj - pw) else 0)⟩ := by
  unfold conv3d
  simp only [List.getD_cons_zero, List.getD_cons_succ]
  rw [if_neg hg, if_neg (by omega), if_neg (by push_neg; omega)]
  congr 1
  congr 1
  · omega
  · funext b c t i j
    refine Finset.sum_congr rfl fun di _ => Finset.sum_congr rfl fun dj _ => ?_
    congr 1
    by_cases hcond : t < inp.T ∧ ph ≤ i + di ∧ i + di < inp.H + ph ∧
        pw ≤ j + dj ∧ j + dj < inp.W + pw
    · rw [if_pos, if_pos hcond]
      · simp
      · refine ⟨by omega, by omega, ?_⟩
        exact ⟨hcond.2.1, hcond.2.2.1, hcond.2.2.2.1, hcond.2.2.2.2⟩
    · rw [if_neg, if_neg hcond]
      intro hcond2
      exact hcond ⟨by omega, hcond2.2.2.1, hcond2.2.2.2.1, hcond2.2.2.2.2.1,
        hcond2.2.2.2.2.2⟩

/-- Variant of `conv3d_ok` on a literal tensor with `groups` equal to the
channel field, as `forward` calls it. -/
lemma conv3d_lit_ok (Bn Cn Tn Hn Wn : ℕ) (d : ℕ → ℕ → ℕ → ℕ → ℕ → ℝ)
    (K : List (List ℝ)) (ph pw : ℕ) (hg : Cn ≠ 0) (hT : 1 ≤ Tn)
    (hH : K.length ≤ Hn + 2 * ph) (hW : (K.getD 0 []).length ≤ Wn + 2 * pw) :
    conv3d ⟨Bn, Cn, Tn, Hn, Wn, d⟩ K [0, ph, pw] Cn =
      .ok ⟨Bn, Cn, Tn, Hn + 2 * ph - K.length + 1,
        Wn + 2 * pw - (K.getD 0 []).length + 1,
        fun b c t i j =>
          ∑ di ∈ Finset.range K.length, ∑ dj ∈ Finset.range (K.getD 0 []).length,
            kfun K di dj *
              (if t < Tn ∧ ph ≤ i + di ∧ i + di < Hn + ph ∧
                  pw ≤ j + dj ∧ j + dj < Wn + pw
               then d b c t (i + di - ph) (j + dj - pw) else 0)⟩ :=
  conv3d_ok ⟨Bn, Cn, Tn, Hn, Wn, d⟩ K ph pw Cn hg rfl hT hH hW

/-- Rewriting one windowed statistic of the convolution output into the
per-volume `convAt` form, given an evaluation of the input segment. -/
lemma convdata_eval (K : List (List ℝ)) (ph pw Tn Hn Wn : ℕ)
    (d g : ℕ → ℕ → ℕ → ℕ → ℕ → ℝ) (b2 b c t i j : ℕ) (ht : t < Tn)
    (hseg : ∀ h w, h < Hn → w < Wn → d b2 c t h w = g b c t h w) :
    (∑ di ∈ Finset.range K.length, ∑ dj ∈ Finset.range (K.getD 0 []).length,
      kfun K di dj *
        (if t < Tn ∧ ph ≤ i + di ∧ i + di < Hn + ph ∧
            pw ≤ j + dj ∧ j + dj < Wn + pw
         then d b2 c t (i + di - ph) (j + dj - pw) else 0)) =
      convAt K ph pw Hn Wn g b c t i j := by
  unfold convAt
  refine Finset.sum_congr rfl fun di _ => Finset.sum_congr rfl fun dj _ => ?_
  congr 1
  by_cases hcond : ph ≤ i + di ∧ i + di < Hn + ph ∧ pw ≤ j + dj ∧ j + dj < Wn + pw
  · rw [if_pos ⟨ht, hcond.1, hcond.2.1, hcond.2.2.1, hcond.2.2.2⟩, if_pos hcond,
      hseg _ _ (by omega) (by omega)]
  · rw [if_neg, if_neg hcond]
    intro hcond2
    exact hcond ⟨hcond2.2.1, hcond2.2.2.1, hcond2.2.2.2.1, hcond2.2.2.2.2⟩

/-- Master lemma: on equally shaped inputs with a positive channel count, at
least one time step, and spatial extents compatible with the kernel,
`forward` succeeds, the output shape is the conv output shape, and each
in-range output entry is the SSIM ratio of the five per-volume windowed
statistics. -/
lemma forward_aligned (m : SSIM3D) (x y : STensor) (ph pw : ℕ)
    (hpad : m.pad = [0, ph, pw])
    (hB : y.B = x.B) (hC : y.C = x.C) (hT : y.T = x.T) (hH : y.H = x.H)
    (hW : y.W = x.W) (hC1 : 1 ≤ x.C) (hT1 : 1 ≤ x.T)
    (hkh : m.kernel.length ≤ x.H + 2 * ph)
    (hkw : (m.kernel.getD 0 []).length ≤ x.W + 2 * pw) :
    ∃ r, SSIM3D.forward m x y = .ok r ∧
      r.B = x.B ∧ r.C = x.C ∧ r.T = x.T ∧
      r.H = x.H + 2 * ph - m.kernel.length + 1 ∧
      r.W = x.W + 2 * pw - (m.kernel.getD 0 []).length + 1 ∧
      ∀ b c t i j, b < x.B → c < x.C → t < x.T →
        i < x.H + 2 * ph - m.kernel.length + 1 →
        j < x.W + 2 * pw - (m.kernel.getD 0 []).length + 1 →
        r.data b c t i j =
          ssim_formula m.c1 m.c2
            (convAt m.kernel ph pw x.H x.W x.data b c t i j)
            (convAt m.kernel ph pw x.H x.W y.data b c t i j)
            (convAt m.kernel ph pw x.H x.W
              (fun b c t h w => x.data b c t h w ^ 2) b c t i j)
            (convAt m.kernel ph pw x.H x.W
              (fun b c t h w => y.data b c t h w ^ 2) b c t i j)
            (convAt m.kernel ph pw x.H x.W
              (fun b c t h w => x.data b c t h w * y.data b c t h w) b c t i j) := by
  unfold SSIM3D.forward
  simp only [tmul, tsub, tadd, tdiv, tpow2, tmap]
  rw [broadcastOp_aligned (fun a b => a * b) x y hB hC hT hH hW]
  simp only [except_bind_ok]
  rw [catBatch_cons_ok x _ (by simp [sameNonBatch, hC, hT, hH, hW])]
  simp only [except_bind_ok, List.map_cons, List.map_nil, List.sum_cons,
    List.sum_nil]
  rw [show x.B + (y.B + (x.B + (y.B + (x.B + 0)))) = 5 * x.B from by omega,
    hpad]
  rw [conv3d_lit_ok _ _ _ _ _ _ m.kernel ph pw (by omega) hT1 hkh hkw]
  simp only [except_bind_ok, tslice]
  simp only [show min 0 (5 * x.B) = 0 from by omega,
    show min x.B (5 * x.B) = x.B from by omega,
    show min (2 * x.B) (5 * x.B) = 2 * x.B from by omega,
    show min (3 * x.B) (5 * x.B) = 3 * x.B from by omega,
    show min (4 * x.B) (5 * x.B) = 4 * x.B from by omega,
    show min (5 * x.B) (5 * x.B) = 5 * x.B from by omega,
    show x.B - 0 = x.B from by omega,
    show 2 * x.B - x.B = x.B from by omega,
    show 3 * x.B - 2 * x.B = x.B from by omega,
    show 4 * x.B - 3 * x.B = x.B from by omega,
    show 5 * x.B - 4 * x.B = x.B from by omega,
    Nat.add_zero]
  simp only [tsmul, tsadd, tmap, broadcastOp_lit, except_bind_ok]
  refine ⟨_, rfl, rfl, rfl, rfl, rfl, rfl, ?_⟩
  intro b c t i j hb hcc htt hii hjj
  have hb1 : bidx x.B b = b := bidx_lt _ _ hb
  have hc1 : bidx x.C c = c := bidx_lt _ _ hcc
  have ht1 : bidx x.T t = t := bidx_lt _ _ htt
  have hi1 : bidx (x.H + 2 * ph - m.kernel.length + 1) i = i := bidx_lt _ _ hii
  have hj1 : bidx (x.W + 2 * pw - (m.kernel.getD 0 []).length + 1) j = j :=
    bidx_lt _ _ hjj
  simp only [hb1, hc1, ht1, hi1, hj1]
  set X2 : STensor := ⟨x.B, x.C, x.T, x.H, x.W,
    fun b c t h w => x.data b c t h w ^ 2⟩ with hX2
  set Y2 : STensor := ⟨y.B, y.C, y.T, y.H, y.W,
    fun b c t h w => y.data b c t h w ^ 2⟩ with hY2
  set XY : STensor := ⟨x.B, x.C, x.T, x.H, x.W,
    fun b c t h w =>
      x.data (bidx x.B b) (bidx x.C c) (bidx x.T t) (bidx x.H h) (bidx x.W w) *
        y.data (bidx x.B b) (bidx x.C c) (bidx x.T t) (bidx x.H h) (bidx x.W w)⟩
    with hXY
  have hcd := fun (h w : ℕ) =>
    catData_five x y X2 Y2 XY x.B rfl hB rfl hB rfl b c t h w hb
  rw [convdata_eval m.kernel ph pw x.T x.H x.W (catData [x, y, X2, Y2, XY])
      x.data b b c t i j htt (fun h w _ _ => (hcd h w).1),
    convdata_eval m.kernel ph pw x.T x.H x.W (catData [x, y, X2, Y2, XY])
      y.data (b + x.B) b c t i j htt (fun h w _ _ => (hcd h w).2.1),
    convdata_eval m.kernel ph pw x.T x.H x.W (catData [x, y, X2, Y2, XY])
      (fun b c t h w => x.data b c t h w ^ 2) (b + 2 * x.B) b c t i j htt
      (fun h w _ _ => (hcd h w).2.2.1),
    convdata_eval m.kernel ph pw x.T x.H x.W (catData [x, y, X2, Y2, XY])
      (fun b c t h w => y.data b c t h w ^ 2) (b + 3 * x.B) b c t i j htt
      (fun h w _ _ => (hcd h w).2.2.2.1),
    convdata_eval m.kernel ph pw x.T x.H x.W (catData [x, y, X2, Y2, XY])
      (fun b c t h w => x.data b c t h w * y.data b c t h w) (b + 4 * x.B)
      b c t i j htt
      (fun h w hh hw => by
        rw [(hcd h w).2.2.2.2]
        simp only [hXY, bidx_lt x.B b hb, bidx_lt x.C c hcc, bidx_lt x.T t htt,
          bidx_lt x.H h hh, bidx_lt x.W w hw])]
  simp only [ssim_formula]
  ring


lemma init_ok_elim (ks : ℕ ⊕ ℕ × ℕ) (sg : ℝ ⊕ ℝ × ℝ) (k1v k2v dr : ℝ)
    (m : SSIM3D) (h : SSIM3D.init ks sg k1v k2v dr = .ok m) :
    m.c1 = (k1v * dr) ^ 2 ∧ m.c2 = (k2v * dr) ^ 2 ∧
    m.kernel = create_2d_gaussian_kernel ks sg ∧
    m.pad = [0, ((resolveKS ks).1 - 1) / 2, ((resolveKS ks).2 - 1) / 2] := by
  unfold SSIM3D.init at h
  split_ifs at h
  injection h with h2
  subst h2
  exact ⟨rfl, rfl, rfl, rfl⟩

lemma shape_elim (x y : STensor) (h : y.shape = x.shape) :
    y.B = x.B ∧ y.C = x.C ∧ y.T = x.T ∧ y.H = x.H ∧ y.W = x.W := by
  simp only [STensor.shape, Prod.mk.injEq] at h
  exact ⟨h.1, h.2.1, h.2.2.1, h.2.2.2.1, h.2.2.2.2⟩

/-- C1: for equally shaped 5-axis inputs and a validly constructed engine
(positive per-axis kernel sizes; nondegenerate channel/time/spatial extents
so the convolution is defined), `forward` succeeds and every in-range entry
of the result equals the SSIM ratio assembled from the five zero-padded
windowed statistics `ux, uy, uxx, uyy, uxy` of `x`, `y`, `x²`, `y²`, `x·y`,
each convolved with the same Gaussian kernel with padding `(k-1)/2` on
height and width and none on time. -/
theorem claim_C1_forward_formula (ks : ℕ ⊕ ℕ × ℕ) (sg : ℝ ⊕ ℝ × ℝ)
    (k1v k2v dr : ℝ) (m : SSIM3D) (x y : STensor)
    (hinit : SSIM3D.init ks sg k1v k2v dr = .ok m)
    (hshape : y.shape = x.shape)
    (hk1 : 1 ≤ (resolveKS ks).1) (hk2 : 1 ≤ (resolveKS ks).2)
    (hC1 : 1 ≤ x.C) (hT1 : 1 ≤ x.T)
    (hkh : (resolveKS ks).1 ≤ x.H + 2 * (((resolveKS ks).1 - 1) / 2))
    (hkw : (resolveKS ks).2 ≤ x.W + 2 * (((resolveKS ks).2 - 1) / 2)) :
    ∃ r, SSIM3D.forward m x y = .ok r ∧
      r.B = x.B ∧ r.C = x.C ∧ r.T = x.T ∧
      r.H = x.H + 2 * (((resolveKS ks).1 - 1) / 2) - (resolveKS ks).1 + 1 ∧
      r.W = x.W + 2 * (((resolveKS ks).2 - 1) / 2) - (resolveKS ks).2 + 1 ∧
      ∀ b c t i j, b < x.B → c < x.C → t < x.T →
        i < x.H + 2 * (((resolveKS ks).1 - 1) / 2) - (resolveKS ks).1 + 1 →
        j < x.W + 2 * (((resolveKS ks).2 - 1) / 2) - (resolveKS ks).2 + 1 →
        r.data b c t i j =
          ssim_formula m.c1 m.c2
            (convAt (create_2d_gaussian_kernel ks sg)
              (((resolveKS ks).1 - 1) / 2) (((resolveKS ks).2 - 1) / 2)
              x.H x.W x.data b c t i j)
            (convAt (create_2d_gaussian_kernel ks sg)
              (((resolveKS ks).1 - 1) / 2) (((resolveKS ks).2 - 1) / 2)
              x.H x.W y.data b c t i j)
            (convAt (create_2d_gaussian_kernel ks sg)
              (((resolveKS ks).1 - 1) / 2) (((resolveKS ks).2 - 1) / 2)
              x.H x.W (fun b c t h w => x.data b c t h w ^ 2) b c t i j)
            (convAt (create_2d_gaussian_kernel ks sg)
              (((resolveKS ks).1 - 1) / 2) (((resolveKS ks).2 - 1) / 2)
              x.H x.W (fun b c t h w => y.data b c t h w ^ 2) b c t i j)
            (convAt (create_2d_gaussian_kernel ks sg)
              (((resolveKS ks).1 - 1) / 2) (((resolveKS ks).2 - 1) / 2)
              x.H x.W (fun b c t h w => x.data b c t h w * y.data b c t h w)
              b c t i j) := by
  obtain ⟨hc1e, hc2e, hker, hpad⟩ := init_ok_elim ks sg k1v k2v dr m hinit
  obtain ⟨hB, hC, hT, hH, hW⟩ := shape_elim x y hshape
  have hlen : m.kernel.length = (resolveKS ks).1 := by
    rw [hker, create2d_length]
  have hrow : (m.kernel.getD 0 []).length = (resolveKS ks).2 := by
    rw [hker, create2d_row0_length ks sg hk1]
  have main := forward_aligned m x y (((resolveKS ks).1 - 1) / 2)
    (((resolveKS ks).2 - 1) / 2) hpad hB hC hT hH hW hC1 hT1
    (by rw [hlen]; exact hkh) (by rw [hrow]; exact hkw)
  rw [hlen, hrow, hker] at main
  exact main

/-- Witness for C1: the default configuration on a pair of `1×1×1×1×1`
zero tensors. -/
theorem claim_C1_forward_formula_witness :
    SSIM3D.init (.inl 11) (.inl 1.5) 0.01 0.03 1 = .ok defaultSSIM ∧
      ∃ r, SSIM3D.forward defaultSSIM (tZero 1 1 1 1 1) (tZero 1 1 1 1 1) =
          .ok r ∧
        r.B = 1 ∧ r.C = 1 ∧ r.T = 1 ∧ r.H = 1 ∧ r.W = 1 ∧
        ∀ b c t i j, b < 1 → c < 1 → t < 1 → i < 1 → j < 1 →
          r.data b c t i j =
            ssim_formula defaultSSIM.c1 defaultSSIM.c2
              (convAt (create_2d_gaussian_kernel (.inl 11) (.inl 1.5)) 5 5 1 1
                (fun _ _ _ _ _ => 0) b c t i j)
              (convAt (create_2d_gaussian_kernel (.inl 11) (.inl 1.5)) 5 5 1 1
                (fun _ _ _ _ _ => 0) b c t i j)
              (convAt (create_2d_gaussian_kernel (.inl 11) (.inl 1.5)) 5 5 1 1
                (fun b c t h w => (0 : ℝ) ^ 2) b c t i j)
              (convAt (create_2d_gaussian_kernel (.inl 11) (.inl 1.5)) 5 5 1 1
                (fun b c t h w => (0 : ℝ) ^ 2) b c t i j)
              (convAt (create_2d_gaussian_kernel (.inl 11) (.inl 1.5)) 5 5 1 1
                (fun b c t h w => (0 : ℝ) * 0) b c t i j) := by
  have hinit : SSIM3D.init (.inl 11) (.inl 1.5) 0.01 0.03 1 = .ok defaultSSIM := by
    unfold SSIM3D.init defaultSSIM
    rw [if_pos (by norm_num), if_pos (by norm_num), if_pos (by norm_num)]
    rfl
  refine ⟨hinit, ?_⟩
  exact claim_C1_forward_formula (.inl 11) (.inl 1.5) 0.01 0.03 1 defaultSSIM
    (tZero 1 1 1 1 1) (tZero 1 1 1 1 1) hinit rfl
    (by norm_num [resolveKS]) (by norm_num [resolveKS])
    (by norm_num [tZero]) (by norm_num [tZero])
    (by norm_num [resolveKS, tZero]) (by norm_num [resolveKS, tZero])

/-- C3: for equally shaped inputs with odd per-axis kernel sizes, spatial
sizes at least the kernel size, and nondegenerate channel/time extents, the
tensor returned by `forward` has exactly the shape of the inputs. -/
theorem claim_C3_shape_preserved (ks : ℕ ⊕ ℕ × ℕ) (sg : ℝ ⊕ ℝ × ℝ)
    (k1v k2v dr : ℝ) (m : SSIM3D) (x y : STensor)
    (hinit : SSIM3D.init ks sg k1v k2v dr = .ok m)
    (hshape : y.shape = x.shape)
    (hodd1 : Odd (resolveKS ks).1) (hodd2 : Odd (resolveKS ks).2)
    (hC1 : 1 ≤ x.C) (hT1 : 1 ≤ x.T)
    (hHk : (resolveKS ks).1 ≤ x.H) (hWk : (resolveKS ks).2 ≤ x.W) :
    ∃ r, SSIM3D.forward m x y = .ok r ∧ r.shape = x.shape := by
  obtain ⟨hc1e, hc2e, hker, hpad⟩ := init_ok_elim ks sg k1v k2v dr m hinit
  obtain ⟨hB, hC, hT, hH, hW⟩ := shape_elim x y hshape
  obtain ⟨a1, ha1⟩ := hodd1
  obtain ⟨a2, ha2⟩ := hodd2
  have hlen : m.kernel.length = (resolveKS ks).1 := by
    rw [hker, create2d_length]
  have hrow : (m.kernel.getD 0 []).length = (resolveKS ks).2 := by
    rw [hker, create2d_row0_length ks sg (by omega)]
  obtain ⟨r, hr, hrB, hrC, hrT, hrH, hrW, _⟩ :=
    forward_aligned m x y (((resolveKS ks).1 - 1) / 2)
      (((resolveKS ks).2 - 1) / 2) hpad hB hC hT hH hW hC1 hT1
      (by rw [hlen]; omega) (by rw [hrow]; omega)
  refine ⟨r, hr, ?_⟩
  rw [hlen] at hrH
  rw [hrow] at hrW
  simp only [STensor.shape, Prod.mk.injEq]
  exact ⟨hrB, hrC, hrT, by omega, by omega⟩

/-- Witness for C3: default configuration, inputs of shape `2×1×1×11×12`. -/
theorem claim_C3_shape_preserved_witness :
    SSIM3D.init (.inl 11) (.inl 1.5) 0.01 0.03 1 = .ok defaultSSIM ∧
      ∃ r, SSIM3D.forward defaultSSIM (tZero 2 1 1 11 12) (tZero 2 1 1 11 12) =
          .ok r ∧ r.shape = (tZero 2 1 1 11 12).shape := by
  have hinit : SSIM3D.init (.inl 11) (.inl 1.5) 0.01 0.03 1 = .ok defaultSSIM := by
    unfold SSIM3D.init defaultSSIM
    rw [if_pos (by norm_num), if_pos (by norm_num), if_pos (by norm_num)]
    rfl
  refine ⟨hinit, ?_⟩
  exact claim_C3_shape_preserved (.inl 11) (.inl 1.5) 0.01 0.03 1 defaultSSIM
    (tZero 2 1 1 11 12) (tZero 2 1 1 11 12) hinit rfl
    ⟨5, by norm_num [resolveKS]⟩ ⟨5, by norm_num [resolveKS]⟩
    (by norm_num [tZero]) (by norm_num [tZero])
    (by norm_num [resolveKS, tZero]) (by norm_num [resolveKS, tZero])

lemma convAt_mul_self_eq_sq (K : List (List ℝ)) (ph pw Hn Wn : ℕ)
    (d : ℕ → ℕ → ℕ → ℕ → ℕ → ℝ) (b c t i j : ℕ) :
    convAt K ph pw Hn Wn (fun b c t h w => d b c t h w * d b c t h w) b c t i j =
      convAt K ph pw Hn Wn (fun b c t h w => d b c t h w ^ 2) b c t i j := by
  unfold convAt
  refine Finset.sum_congr rfl fun di _ => Finset.sum_congr rfl fun dj _ => ?_
  congr 1
  split
  · ring
  · rfl

/-- The local second moment dominates the squared local mean: a weighted
Cauchy-Schwarz over the kernel window (with the zero-padded values). -/
lemma convAt_sq_le (K : List (List ℝ)) (ph pw Hn Wn : ℕ)
    (d : ℕ → ℕ → ℕ → ℕ → ℕ → ℝ) (b c t i j : ℕ)
    (hknn : ∀ p q, 0 ≤ kfun K p q)
    (hsum : (∑ di ∈ Finset.range K.length,
      ∑ dj ∈ Finset.range (K.getD 0 []).length, kfun K di dj) = 1) :
    (convAt K ph pw Hn Wn d b c t i j) ^ 2 ≤
      convAt K ph pw Hn Wn (fun b c t h w => d b c t h w ^ 2) b c t i j := by
  unfold convAt
  have key := sq_sum_le_sum_mul
    (Finset.range K.length ×ˢ Finset.range (K.getD 0 []).length)
    (fun p => kfun K p.1 p.2)
    (fun p => if ph ≤ i + p.1 ∧ i + p.1 < Hn + ph ∧ pw ≤ j + p.2 ∧
        j + p.2 < Wn + pw
      then d b c t (i + p.1 - ph) (j + p.2 - pw) else 0)
    (fun p _ => hknn p.1 p.2)
  rw [Finset.sum_product, Finset.sum_product, Finset.sum_product] at key
  simp only at key
  rw [hsum, one_mul] at key
  refine le_trans key (le_of_eq ?_)
  refine Finset.sum_congr rfl fun di _ => Finset.sum_congr rfl fun dj _ => ?_
  congr 1
  split
  · rfl
  · norm_num

lemma default_kernel_len : defaultSSIM.kernel.length = 11 := by
  show (create_2d_gaussian_kernel (.inl 11) (.inl 1.5)).length = 11
  rw [create2d_length]
  rfl

lemma default_kernel_row : (defaultSSIM.kernel.getD 0 []).length = 11 := by
  show ((create_2d_gaussian_kernel (.inl 11) (.inl 1.5)).getD 0 []).length = 11
  rw [create2d_row0_length _ _ (by norm_num [resolveKS])]
  rfl

lemma default_kernel_sum :
    (∑ di ∈ Finset.range defaultSSIM.kernel.length,
      ∑ dj ∈ Finset.range (defaultSSIM.kernel.getD 0 []).length,
        kfun defaultSSIM.kernel di dj) = 1 := by
  rw [default_kernel_len, default_kernel_row]
  exact create2d_sum (.inl 11) (.inl 1.5) (by norm_num [resolveKS])
    (by norm_num [resolveKS])

/-- C7: with the default configuration, `forward x x` succeeds, keeps the
input shape, and every in-range entry of the result is exactly 1 (hence
within any tolerance): in exact arithmetic the numerator factors coincide
with the denominator factors, which are positive. -/
theorem claim_C7_self_similarity (x : STensor)
    (hC1 : 1 ≤ x.C) (hT1 : 1 ≤ x.T) (hH1 : 1 ≤ x.H) (hW1 : 1 ≤ x.W) :
    ∃ r, SSIM3D.forward defaultSSIM x x = .ok r ∧ r.shape = x.shape ∧
      ∀ b c t i j, b < x.B → c < x.C → t < x.T → i < x.H → j < x.W →
        r.data b c t i j = 1 := by
  have hpad : defaultSSIM.pad = [0, 5, 5] := rfl
  obtain ⟨r, hr, hrB, hrC, hrT, hrH, hrW, hpt⟩ :=
    forward_aligned defaultSSIM x x 5 5 hpad rfl rfl rfl rfl rfl hC1 hT1
      (by rw [default_kernel_len]; omega) (by rw [default_kernel_row]; omega)
  have hHout : x.H + 2 * 5 - defaultSSIM.kernel.length + 1 = x.H := by
    rw [default_kernel_len]; omega
  have hWout : x.W + 2 * 5 - (defaultSSIM.kernel.getD 0 []).length + 1 = x.W := by
    rw [default_kernel_row]; omega
  refine ⟨r, hr, ?_, ?_⟩
  · simp only [STensor.shape, Prod.mk.injEq]
    exact ⟨hrB, hrC, hrT, hrH.trans hHout, hrW.trans hWout⟩
  · intro b c t i j hb hcc htt hii hjj
    rw [hpt b c t i j hb hcc htt (by rw [hHout]; exact hii)
      (by rw [hWout]; exact hjj)]
    rw [convAt_mul_self_eq_sq]
    set u := convAt defaultSSIM.kernel 5 5 x.H x.W x.data b c t i j with hu
    set v := convAt defaultSSIM.kernel 5 5 x.H x.W
      (fun b c t h w => x.data b c t h w ^ 2) b c t i j with hv
    have husq : u ^ 2 ≤ v :=
      convAt_sq_le defaultSSIM.kernel 5 5 x.H x.W x.data b c t i j
        (fun p q => kfun_create2d_nonneg (.inl 11) (.inl 1.5) p q)
        default_kernel_sum
    have hc1p : (0 : ℝ) < defaultSSIM.c1 := by norm_num [defaultSSIM]
    have hc2p : (0 : ℝ) < defaultSSIM.c2 := by norm_num [defaultSSIM]
    have hd1 : 0 < u ^ 2 + u ^ 2 + defaultSSIM.c1 := by nlinarith [sq_nonneg u]
    have hd2 : 0 < (v - u ^ 2) + (v - u ^ 2) + defaultSSIM.c2 := by nlinarith
    simp only [ssim_formula]
    rw [show 2 * u * u + defaultSSIM.c1 = u ^ 2 + u ^ 2 + defaultSSIM.c1 from by
      ring]
    rw [show 2 * (v - u * u) + defaultSSIM.c2 =
      (v - u ^ 2) + (v - u ^ 2) + defaultSSIM.c2 from by ring]
    exact div_self (ne_of_gt (mul_pos hd1 hd2))

/-- Witness for C7 at a `1×1×1×1×1` zero tensor. -/
theorem claim_C7_self_similarity_witness :
    ∃ r, SSIM3D.forward defaultSSIM (tZero 1 1 1 1 1) (tZero 1 1 1 1 1) =
        .ok r ∧ r.shape = (tZero 1 1 1 1 1).shape ∧
      ∀ b c t i j, b < 1 → c < 1 → t < 1 → i < 1 → j < 1 →
        r.data b c t i j = 1 :=
  claim_C7_self_similarity (tZero 1 1 1 1 1) (by norm_num [tZero])
    (by norm_num [tZero]) (by norm_num [tZero]) (by norm_num [tZero])

lemma convAt_congr_fn (K : List (List ℝ)) (ph pw Hn Wn : ℕ)
    (f g : ℕ → ℕ → ℕ → ℕ → ℕ → ℝ) (b c t i j : ℕ)
    (hfg : ∀ b c t h w, f b c t h w = g b c t h w) :
    convAt K ph pw Hn Wn f b c t i j = convAt K ph pw Hn Wn g b c t i j := by
  unfold convAt
  refine Finset.sum_congr rfl fun di _ => Finset.sum_congr rfl fun dj _ => ?_
  congr 1
  split
  · exact hfg _ _ _ _ _
  · rfl

/-- C8: on equally shaped inputs (and a validly constructed engine with
nondegenerate extents), swapping prediction and target gives a result of
the same shape whose in-range entries coincide exactly: the formula is
symmetric in the two inputs. -/
theorem claim_C8_symmetric (ks : ℕ ⊕ ℕ × ℕ) (sg : ℝ ⊕ ℝ × ℝ)
    (k1v k2v dr : ℝ) (m : SSIM3D) (x y : STensor)
    (hinit : SSIM3D.init ks sg k1v k2v dr = .ok m)
    (hshape : y.shape = x.shape)
    (hk1 : 1 ≤ (resolveKS ks).1) (hk2 : 1 ≤ (resolveKS ks).2)
    (hC1 : 1 ≤ x.C) (hT1 : 1 ≤ x.T)
    (hkh : (resolveKS ks).1 ≤ x.H + 2 * (((resolveKS ks).1 - 1) / 2))
    (hkw : (resolveKS ks).2 ≤ x.W + 2 * (((resolveKS ks).2 - 1) / 2)) :
    ∃ r s, SSIM3D.forward m x y = .ok r ∧ SSIM3D.forward m y x = .ok s ∧
      r.shape = s.shape ∧
      ∀ b c t i j, b < x.B → c < x.C → t < x.T →
        i < x.H + 2 * (((resolveKS ks).1 - 1) / 2) - (resolveKS ks).1 + 1 →
        j < x.W + 2 * (((resolveKS ks).2 - 1) / 2) - (resolveKS ks).2 + 1 →
        r.data b c t i j = s.data b c t i j := by
  obtain ⟨hc1e, hc2e, hker, hpad⟩ := init_ok_elim ks sg k1v k2v dr m hinit
  obtain ⟨hB, hC, hT, hH, hW⟩ := shape_elim x y hshape
  have hlen : m.kernel.length = (resolveKS ks).1 := by
    rw [hker, create2d_length]
  have hrow : (m.kernel.getD 0 []).length = (resolveKS ks).2 := by
    rw [hker, create2d_row0_length ks sg hk1]
  obtain ⟨r, hr, hrB, hrC, hrT, hrH, hrW, hpt1⟩ :=
    forward_aligned m x y (((resolveKS ks).1 - 1) / 2)
      (((resolveKS ks).2 - 1) / 2) hpad hB hC hT hH hW hC1 hT1
      (by rw [hlen]; exact hkh) (by rw [hrow]; exact hkw)
  obtain ⟨s, hs, hsB, hsC, hsT, hsH, hsW, hpt2⟩ :=
    forward_aligned m y x (((resolveKS ks).1 - 1) / 2)
      (((resolveKS ks).2 - 1) / 2) hpad hB.symm hC.symm hT.symm hH.symm hW.symm
      (by rw [hC]; exact hC1) (by rw [hT]; exact hT1)
      (by rw [hlen, hH]; exact hkh) (by rw [hrow, hW]; exact hkw)
  refine ⟨r, s, hr, hs, ?_, ?_⟩
  · simp only [STensor.shape, Prod.mk.injEq]
    refine ⟨by rw [hrB, hsB, hB], by rw [hrC, hsC, hC], by rw [hrT, hsT, hT],
      by rw [hrH, hsH, hH], by rw [hrW, hsW, hW]⟩
  · intro b c t i j hb hcc htt hii hjj
    rw [hpt1 b c t i j hb hcc htt (by rw [hlen]; exact hii)
      (by rw [hrow]; exact hjj)]
    rw [hpt2 b c t i j (by rw [hB]; exact hb) (by rw [hC]; exact hcc)
      (by rw [hT]; exact htt) (by rw [hH, hlen]; exact hii)
      (by rw [hW, hrow]; exact hjj)]
    rw [hH, hW]
    rw [convAt_congr_fn m.kernel (((resolveKS ks).1 - 1) / 2)
      (((resolveKS ks).2 - 1) / 2) x.H x.W
      (fun b c t h w => y.data b c t h w * x.data b c t h w)
      (fun b c t h w => x.data b c t h w * y.data b c t h w) b c t i j
      (fun b c t h w => mul_comm _ _)]
    simp only [ssim_formula]
    ring

/-- Witness for C8 at the default configuration on `1×1×1×1×1` zero
tensors. -/
theorem claim_C8_symmetric_witness :
    SSIM3D.init (.inl 11) (.inl 1.5) 0.01 0.03 1 = .ok defaultSSIM ∧
      ∃ r s, SSIM3D.forward defaultSSIM (tZero 1 1 1 1 1) (tZero 1 1 1 1 1) =
          .ok r ∧
        SSIM3D.forward defaultSSIM (tZero 1 1 1 1 1) (tZero 1 1 1 1 1) = .ok s ∧
        r.shape = s.shape ∧
        ∀ b c t i j, b < 1 → c < 1 → t < 1 → i < 1 → j < 1 →
          r.data b c t i j = s.data b c t i j := by
  have hinit : SSIM3D.init (.inl 11) (.inl 1.5) 0.01 0.03 1 = .ok defaultSSIM := by
    unfold SSIM3D.init defaultSSIM
    rw [if_pos (by norm_num), if_pos (by norm_num), if_pos (by norm_num)]
    rfl
  refine ⟨hinit, ?_⟩
  exact claim_C8_symmetric (.inl 11) (.inl 1.5) 0.01 0.03 1 defaultSSIM
    (tZero 1 1 1 1 1) (tZero 1 1 1 1 1) hinit rfl
    (by norm_num [resolveKS]) (by norm_num [resolveKS])
    (by norm_num [tZero]) (by norm_num [tZero])
    (by norm_num [resolveKS, tZero]) (by norm_num [resolveKS, tZero])

lemma except_error_bind {α β : Type} (e : String)
    (k : α → Except String β) :
    ((Except.error e : Except String α) >>= k) = .error e := rfl

/-- A broadcast operation where the left operand has batch size 1 and the
two operands agree on every non-batch axis. -/
lemma broadcastOp_b1 (f : ℝ → ℝ → ℝ) (x y : STensor) (hxB : x.B = 1)
    (hC : y.C = x.C) (hT : y.T = x.T) (hH : y.H = x.H) (hW : y.W = x.W) :
    broadcastOp f x y =
      .ok ⟨y.B, x.C, x.T, x.H, x.W,
        fun b c t h w =>
          f (x.data (bidx x.B b) (bidx x.C c) (bidx x.T t) (bidx x.H h) (bidx x.W w))
            (y.data (bidx y.B b) (bidx y.C c) (bidx y.T t) (bidx y.H h) (bidx y.W w))⟩ := by
  rw [broadcastOp, if_pos] <;> rw [hC, hT, hH, hW] <;> simp [bcompat, bdim, hxB]

/-- C4 amended: `forward` performs no up-front shape validation.  A call
whose inputs differ on a non-batch axis fails during the computation (at
the elementwise product or the concatenation), not before it; a call whose
inputs agree on all non-batch axes but differ in batch size, with
prediction batch 1, succeeds and produces an output. -/
theorem claim_C4_no_shape_check :
    (∀ (m : SSIM3D) (x y : STensor),
      (x.C, x.T, x.H, x.W) ≠ (y.C, y.T, y.H, y.W) →
      ∃ e, SSIM3D.forward m x y = .error e) ∧
    (∀ (m : SSIM3D) (x y : STensor) (ph pw : ℕ), m.pad = [0, ph, pw] →
      x.B = 1 → 1 ≤ y.B → y.C = x.C → y.T = x.T → y.H = x.H → y.W = x.W →
      1 ≤ x.C → 1 ≤ x.T → m.kernel.length ≤ x.H + 2 * ph →
      (m.kernel.getD 0 []).length ≤ x.W + 2 * pw →
      (SSIM3D.forward m x y).isOk = true) := by
  constructor
  · intro m x y hne
    have hy : sameNonBatch x y = false := by
      rcases Bool.eq_false_or_eq_true (sameNonBatch x y) with ht | hf
      · exfalso
        apply hne
        simp only [sameNonBatch, Bool.and_eq_true, beq_iff_eq] at ht
        simp [ht.1.1.1, ht.1.1.2, ht.1.2, ht.2]
      · exact hf
    unfold SSIM3D.forward
    cases hbo : tmul x y with
    | error e =>
      exact ⟨e, rfl⟩
    | ok xy =>
      refine ⟨"cat shape mismatch", ?_⟩
      simp only [except_bind_ok]
      have hcat :
          catBatch [x, y, tpow2 x, tpow2 y, xy] = .error "cat shape mismatch" := by
        simp only [catBatch]
        rw [if_neg]
        simp [List.all_cons, hy]
      rw [hcat]
      rfl
  · intro m x y ph pw hpad hxB hyB hC hT hH hW hC1 hT1 hkh hkw
    unfold SSIM3D.forward
    simp only [tmul, tsub, tadd, tdiv, tpow2, tmap]
    rw [hxB]
    rw [broadcastOp_b1 (fun a b => a * b) x y hxB hC hT hH hW]
    simp only [except_bind_ok]
    rw [catBatch_cons_ok x _ (by simp [sameNonBatch, hC, hT, hH, hW])]
    simp only [except_bind_ok, List.map_cons, List.map_nil, List.sum_cons,
      List.sum_nil]
    rw [show x.B + (y.B + (1 + (y.B + (y.B + 0)))) = 3 * y.B + 2 from by
      omega, hpad]
    rw [conv3d_lit_ok _ _ _ _ _ _ m.kernel ph pw (by omega) hT1 hkh hkw]
    simp only [except_bind_ok, tslice]
    simp only [Nat.mul_one,
      show min 0 (3 * y.B + 2) = 0 from by omega,
      show min 1 (3 * y.B + 2) = 1 from by omega,
      show min 2 (3 * y.B + 2) = 2 from by omega,
      show min 3 (3 * y.B + 2) = 3 from by omega,
      show min 4 (3 * y.B + 2) = 4 from by omega,
      show min 5 (3 * y.B + 2) = 5 from by omega,
      show (1 : ℕ) - 0 = 1 from by omega,
      show (2 : ℕ) - 1 = 1 from by omega,
      show (3 : ℕ) - 2 = 1 from by omega,
      show (4 : ℕ) - 3 = 1 from by omega,
      show (5 : ℕ) - 4 = 1 from by omega,
      Nat.add_zero]
    simp only [tsmul, tsadd, tmap, broadcastOp_lit, except_bind_ok]
    rfl

/-- Counterexample to C4 as stated: the shapes differ (batch 1 versus
batch 2), yet the call succeeds and produces an output — no error of any
kind is raised, and in particular no check happens before computation. -/
theorem claim_C4_counterexample :
    (tZero 1 1 1 1 1).shape ≠ (tZero 2 1 1 1 1).shape ∧
      (SSIM3D.forward defaultSSIM (tZero 1 1 1 1 1) (tZero 2 1 1 1 1)).isOk =
        true := by
  constructor
  · decide
  · decide

/-- Witness for the amended C4: a channel-count mismatch errors during the
computation, and a batch-only mismatch (prediction batch 1) succeeds. -/
theorem claim_C4_no_shape_check_witness :
    (∃ e, SSIM3D.forward defaultSSIM (tZero 1 2 1 1 1) (tZero 1 1 1 1 1) =
      .error e) ∧
    (SSIM3D.forward defaultSSIM (tZero 1 1 1 1 1) (tZero 3 1 1 1 1)).isOk =
      true :=
  ⟨claim_C4_no_shape_check.1 defaultSSIM (tZero 1 2 1 1 1) (tZero 1 1 1 1 1)
      (by decide),
   claim_C4_no_shape_check.2 defaultSSIM (tZero 1 1 1 1 1) (tZero 3 1 1 1 1)
      5 5 rfl rfl (by decide) rfl rfl rfl rfl (by decide) (by decide)
      (by decide) (by decide)⟩

end SatPred
